import Mathlib

/-!
Verification of the interception-and-resolution subsystem of
`webpack-isomorphic-tools` (src/source/index.js), as a shallow embedding.
-/

namespace WIT

/-- A matcher from an asset type description's include/exclude lists:
a regular expression (modelled by its `test` function), a predicate
function (its truthy result modelled as `Bool`), or a literal string. -/
inductive Matcher where
  | pattern (test : String → Bool)
  | predicate (f : String → Bool)
  | literal (s : String)

/-- Evaluate a matcher against a path, mirroring the three branches of the
loop bodies of `excludes` / `includes` in index.js. -/
def Matcher.matches (m : Matcher) (path : String) : Bool :=
  match m with
  | .pattern test => test path
  | .predicate f => f path
  | .literal s => s = path

/-- An asset type description: the file extensions and the optional
include/exclude matcher lists.  `none` models an absent (`undefined`)
list, `some []` a present but empty one. -/
structure Description where
  extensions : List String
  include' : Option (List Matcher)
  exclude : Option (List Matcher)

/-- The manifest (`webpack-assets.json`): a mapping from canonical asset
keys to resolved values.  Values are opaque; we use `String`. -/
structure Manifest where
  assets : List (String × String)
deriving DecidableEq

/-- Modelled from the spec: `default_webpack_assets` is imported from
`common.js`, which is not among the provided sources.  Per §4.1/§7 the
development-mode fallback is "an empty default manifest". -/
def default_webpack_assets : Manifest := ⟨[]⟩

/-- Modelled from the spec: the helper `exists` is imported from
`helpers.js`, which is not among the provided sources.  It tests that a
value is neither `undefined` nor `null`; on an optional value this is
exactly `Option.isSome`. -/
def exists' (o : Option α) : Bool := o.isSome

/-- `starts_with` from `helpers.js` (not among the provided sources),
over character lists: does the first list start with the second? -/
def starts_with_chars : List Char → List Char → Bool
  | _, [] => true
  | [], _ :: _ => false
  | c :: cs, d :: ds => c = d && starts_with_chars cs ds

/-- Modelled from the spec: `normalize_asset_path` is imported from
`common.js`, which is not among the provided sources.  Per §4.2 it strips
the project-root prefix from an absolute load-time path, yielding the
project-relative canonical key; a path not under the project root is left
for the policy to reject (index.js handles no failure from it). -/
def normalize_asset_path (raw_path project_path : String) : String :=
  if starts_with_chars raw_path.data (project_path.data ++ ['/']) then
    String.mk (raw_path.data.drop (project_path.data.length + 1))
  else
    raw_path

/-- Modelled from the spec: `webpack_path` is imported from `common.js`,
which is not among the provided sources.  Per §4.2 it normalizes directory
separators to the manifest's key format (forward slashes). -/
def webpack_path (p : String) : String :=
  String.mk (p.data.map (fun c => if c = '\\' then '/' else c))

/-- A synthesized CommonJS module source, as produced by the external
`require_hacker.to_javascript_module_source`: modelled abstractly as a
wrapper around the (possibly `undefined`) asset value. -/
structure ModuleSource where
  value : Option String
deriving DecidableEq

/-- The external `require_hacker.to_javascript_module_source`, modelled as
the injective wrapper of the asset value. -/
def to_javascript_module_source (asset : Option String) : ModuleSource :=
  ⟨asset⟩

/-- The observable state of a `webpack_isomorphic_tools` instance together
with the pieces of its host environment the methods touch:

* `development` — `this.options.development`;
* `project_path` — `this.options.project_path` (`none` when `.server()`
  has not been called);
* `webpack_assets_path` — the resolved manifest file path;
* `cached_assets` — `this.cached_assets`;
* `require_cache` — the keys present in Node's `require.cache`;
* `disk` — the filesystem: manifest contents found at a path, or `none`;
* `hooks` — tokens of the extension hooks pushed by `register_extension`;
* `alias_hook` — token of the aliasing hook, when mounted;
* `mounted` — the tokens currently mounted in the host loader pipeline. -/
structure State where
  development : Bool
  project_path : Option String
  webpack_assets_path : String
  cached_assets : List String
  require_cache : List String
  disk : String → Option Manifest
  hooks : List Nat
  alias_hook : Option Nat
  mounted : List Nat

/-- `excludes(path, options)` (index.js lines 340-380): with no `exclude`
list nothing is excluded; otherwise the loop returns `true` on the first
matcher that matches, else `false`. -/
def excludes (path : String) (options : Description) : Bool :=
  match options.exclude with
  | none => false
  | some list => list.any (fun m => m.matches path)

/-- `includes(path, options)` (index.js lines 383-423): with no `include`
list everything is included; otherwise the loop returns `true` on the
first matcher that matches, else `false`. -/
def includes (path : String) (options : Description) : Bool :=
  match options.include' with
  | none => true
  | some list => list.any (fun m => m.matches path)

/-- The error message thrown by `refresh()` in production mode. -/
def refresh_error_message : String :=
  ".refresh() called in production mode. Did you forget to call .development() method on your webpack-isomorphic-tools server instance?"

/-- The error message thrown by `require()` before `.server()` was called. -/
def project_path_error_message : String :=
  "You forgot to call the .server() method passing it your project base path"

/-- `assets()` (index.js lines 68-85): in development mode a missing
manifest file is replaced by the empty default stub (after logging an
error); otherwise the manifest is `require()`d from disk, which fails when
the file is absent. -/
def assets (s : State) : Except String Manifest :=
  if s.development && (s.disk s.webpack_assets_path).isNone then
    Except.ok default_webpack_assets
  else
    match s.disk s.webpack_assets_path with
    | some m => Except.ok m
    | none => Except.error ("Cannot find module " ++ s.webpack_assets_path)

/-- `asset_source(asset_path)` (index.js lines 292-318): empty path yields
`undefined` (sanity check); otherwise the key is looked up in
`assets().assets`; a missing key logs an error and yields `undefined`. -/
def asset_source (s : State) (asset_path : String) : Except String (Option String) :=
  if asset_path = "" then
    Except.ok none
  else
    match assets s with
    | Except.error e => Except.error e
    | Except.ok m =>
      match m.assets.lookup asset_path with
      | some asset => Except.ok (some asset)
      | none => Except.ok none

/-- `require(global_asset_path, description)` (index.js lines 257-289):
throws when `project_path` is unset; declines (returns `undefined`,
modelled `none`) when the inclusion/exclusion policy rejects the
normalized path; otherwise, in development mode, first pushes the original
global path onto `cached_assets`, then wraps the result of `asset_source`
on the separator-normalized key as a CommonJS module source.  The returned
state is the state after the call. -/
def require (s : State) (global_asset_path : String) (description : Description) :
    Except String (Option ModuleSource × State) :=
  match s.project_path with
  | none => Except.error project_path_error_message
  | some project_path =>
    let asset_path := normalize_asset_path global_asset_path project_path
    if (!includes asset_path description) || excludes asset_path description then
      Except.ok (none, s)
    else
      let s' := if s.development
        then { s with cached_assets := s.cached_assets ++ [global_asset_path] }
        else s
      match asset_source s' (webpack_path asset_path) with
      | Except.error e => Except.error e
      | Except.ok v => Except.ok (some (to_javascript_module_source v), s')

/-- `refresh()` (index.js lines 88-112): throws in production mode before
touching anything; in development mode deletes the manifest's
`require.cache` entry, then each tracked asset's entry, then empties
`cached_assets`. -/
def refresh (s : State) : Except String State :=
  if !s.development then
    Except.error refresh_error_message
  else
    let cache := s.require_cache.filter (fun p => p ≠ s.webpack_assets_path)
    let cache := s.cached_assets.foldl (fun c p => c.filter (fun q => q ≠ p)) cache
    Except.ok { s with require_cache := cache, cached_assets := [] }

/-- The state a caller observes after invoking `refresh()`: on a throw the
instance state is left exactly as it was. -/
def exec_refresh (s : State) : State :=
  match refresh s with
  | Except.ok s' => s'
  | Except.error _ => s

/-- The body of the hook closure installed by
`register_extension(extension, description)` (index.js lines 232-254): for
the `'json'` extension a request for the manifest file itself is declined;
every other request goes to `require`. -/
def extension_hook (s : State) (extension : String) (description : Description)
    (path : String) : Except String (Option ModuleSource × State) :=
  if extension = "json" then
    if path = s.webpack_assets_path then
      Except.ok (none, s)
    else
      require s path description
  else
    require s path description

/-- The external `require_hacker` hook token `unmount`: removes the token
from the mounted registry; unmounting an absent token is a no-op. -/
def unmount (mounted : List Nat) (h : Nat) : List Nat :=
  mounted.filter (fun x => x ≠ h)

/-- `undo()` (index.js lines 321-337): unmounts every extension hook in
`this.hooks`, then the aliasing hook when it was mounted.  Neither list is
cleared, so a second call unmounts the same tokens again. -/
def undo (s : State) : State :=
  let m := s.hooks.foldl unmount s.mounted
  let m := match s.alias_hook with
    | some h => unmount m h
    | none => m
  { s with mounted := m }

/-- The extension (suffix after the last dot) of a file path; used only to
state the spec's notion of "the manifest's own extension". -/
def file_extension (p : String) : String :=
  String.mk ((p.data.reverse.takeWhile (fun c => c ≠ '.')).reverse)

/-- The fixed condition-check interval of `wait_for_assets`
(index.js line 434): 300 milliseconds. -/
def wait_for_interval : Nat := 300

/-- The time (in milliseconds since the initial call) of the `n`-th
condition check of `wait_for_assets`: the first check runs immediately and
each negative check schedules the next one `wait_for_interval` later. -/
def poll_time (n : Nat) : Nat := n * wait_for_interval

/-- The recursive `check` chain of `wait_for_assets` (index.js lines
440-457), with explicit fuel bounding how many checks we observe: starting
from check number `n`, returns the number of the check at which the
condition first holds (the completion callback fires exactly there), or
`none` if the condition stayed false for all observed checks. -/
def check_chain (condition : Nat → Bool) : Nat → Nat → Option Nat
  | 0, _ => none
  | fuel + 1, n =>
    if condition (poll_time n) then some n
    else check_chain condition fuel (n + 1)

deriving instance DecidableEq for Except

/-- Projection of a hook invocation's outcome to what the host loader
pipeline observes: a thrown error, a decline (`undefined`, i.e. `none`),
or a claimed load with a synthesized module source. -/
def hook_result (r : Except String (Option ModuleSource × State)) :
    Except String (Option ModuleSource) :=
  r.map Prod.fst

/-- `true` when a hook invocation claimed the load: it neither threw nor
declined. -/
def intercepted (r : Except String (Option ModuleSource × State)) : Bool :=
  match r with
  | Except.ok (some _, _) => true
  | _ => false

/-- The value `asset_source` would produce for a key (with a thrown error
collapsed to `none`); used to name `require`'s synthesized value. -/
def resolved (s : State) (key : String) : Option String :=
  match asset_source s key with
  | Except.ok v => v
  | Except.error _ => none

/-- The claim's interception predicate, stated from the spec's words (for
comparison with the code's `includes`/`excludes`): intercept iff (the
include list is empty or absent, or some include matcher matches) and no
exclude matcher matches. -/
def claim_intercept (key : String) (d : Description) : Bool :=
  (match d.include' with
   | none => true
   | some list => list.isEmpty || list.any (fun m => m.matches key)) &&
  !((d.exclude).getD []).any (fun m => m.matches key)

/-- The instance methods that touch observable state, for stating
reachability invariants over traces of calls. -/
inductive Op where
  | development (flag : Option Bool)
  | assets
  | refresh
  | require (global_asset_path : String) (description : Description)
  | undo

/-- One method call, as a transition on the observable state.  A thrown
error leaves the state as it was (`require` and `refresh` throw before any
mutation). -/
def step (s : State) (op : Op) : State :=
  match op with
  | Op.development flag => { s with development := flag.getD true }
  | Op.assets => s
  | Op.refresh => exec_refresh s
  | Op.require p d =>
    match require s p d with
    | Except.ok (_, s') => s'
    | Except.error _ => s
  | Op.undo => undo s

/-! Concrete fixtures used by witnesses and counterexamples. -/

/-- A concrete manifest with a single asset entry. -/
def sample_manifest : Manifest := ⟨[("a.png", "/build/a.hash.png")]⟩

/-- A development-mode state with the sample manifest on disk. -/
def dev_state : State where
  development := true
  project_path := some "/app"
  webpack_assets_path := "/app/webpack-assets.json"
  cached_assets := []
  require_cache := ["/app/webpack-assets.json", "/app/a.png"]
  disk := fun p => if p = "/app/webpack-assets.json" then some sample_manifest else none
  hooks := [0, 1]
  alias_hook := some 2
  mounted := [0, 1, 2]

/-- The same state in production mode. -/
def prod_state : State := { dev_state with development := false }

/-- A production-mode state whose manifest file has a `.js` extension. -/
def js_manifest_state : State where
  development := false
  project_path := some "/app"
  webpack_assets_path := "/app/webpack-assets.js"
  cached_assets := []
  require_cache := []
  disk := fun p => if p = "/app/webpack-assets.js" then some ⟨[]⟩ else none
  hooks := []
  alias_hook := none
  mounted := []

/-- A description with neither an include nor an exclude list. -/
def d_plain : Description := ⟨["png"], none, none⟩

/-- A description whose include list is present but empty. -/
def d_empty_include : Description := ⟨["png"], some [], none⟩

/-- A description whose include list holds one literal matcher. -/
def d_literal : Description := ⟨["png"], some [Matcher.literal "a.png"], none⟩

/-- A description for the `js` extension, with no include/exclude lists. -/
def d_js : Description := ⟨["js"], none, none⟩

/-- A development-mode state whose manifest file is absent from disk. -/
def dev_missing_state : State := { dev_state with disk := fun _ => none }

/-! Helper lemmas. -/

/-- Membership after a left fold of element-deletions: an element survives
iff it was present and is not one of the deleted ones. -/
theorem mem_foldl_filter {α : Type} [DecidableEq α] (l : List α) (c : List α) (x : α) :
    (x ∈ l.foldl (fun acc q => acc.filter (fun r => r ≠ q)) c) ↔ (x ∈ c ∧ x ∉ l) := by
  induction l generalizing c with
  | nil => simp
  | cons q l ih =>
    simp only [List.foldl_cons, ih, List.mem_filter, List.mem_cons, decide_eq_true_eq]
    tauto

/-- `assets` ignores `cached_assets`. -/
theorem assets_cached_irrel (s : State) (l : List String) :
    assets { s with cached_assets := l } = assets s := rfl

/-- `assets` succeeds in development mode, and in any mode when the
manifest file is on disk. -/
theorem assets_isOk (s : State)
    (h : s.development = true ∨ (s.disk s.webpack_assets_path).isSome = true) :
    ∃ m, assets s = Except.ok m := by
  unfold assets
  cases hd : s.disk s.webpack_assets_path with
  | none =>
    rcases h with h | h
    · exact ⟨default_webpack_assets, by simp [h, hd]⟩
    · rw [hd] at h; simp at h
  | some m =>
    exact ⟨m, by simp [hd]⟩

/-- `asset_source` never throws in development mode, nor when the manifest
file is on disk. -/
theorem asset_source_isOk (s : State) (key : String)
    (h : s.development = true ∨ (s.disk s.webpack_assets_path).isSome = true) :
    ∃ v, asset_source s key = Except.ok v := by
  obtain ⟨m, hm⟩ := assets_isOk s h
  unfold asset_source
  by_cases hk : key = ""
  · exact ⟨none, by simp [hk]⟩
  · rw [if_neg hk, hm]
    cases mf : m.assets.lookup key with
    | none => exact ⟨none, by simp [mf]⟩
    | some a => exact ⟨some a, by simp [mf]⟩

/-- The code's `includes` in terms of matcher satisfaction. -/
theorem includes_iff (path : String) (d : Description) :
    includes path d = true ↔
      (d.include' = none ∨ ∃ m ∈ (d.include').getD [], m.matches path) := by
  cases h : d.include' with
  | none => simp [includes, h]
  | some l => simp [includes, h, List.any_eq_true]

/-- The code's `excludes` in terms of matcher satisfaction. -/
theorem excludes_iff (path : String) (d : Description) :
    excludes path d = true ↔ ∃ m ∈ (d.exclude).getD [], m.matches path := by
  cases h : d.exclude with
  | none => simp [excludes, h]
  | some l => simp [excludes, h, List.any_eq_true]

/-- A left fold of `unmount`s is one filter. -/
theorem foldl_unmount_eq_filter :
    ∀ (l m : List Nat), l.foldl unmount m = m.filter (fun x => decide (x ∉ l))
  | [], m => by simp
  | q :: l, m => by
    simp only [List.foldl_cons]
    rw [foldl_unmount_eq_filter l (unmount m q)]
    unfold unmount
    rw [List.filter_filter]
    refine List.filter_congr (fun x _ => ?_)
    simp [List.mem_cons, not_or, Bool.and_comm]

/-! ### C2: refresh in production mode -/

/-- C2: whenever development mode is off, `refresh()` throws synchronously
(with the production-mode error message) and the observable state is left
exactly as it was — `cached_assets` untouched, no `require.cache` entry
evicted. -/
theorem refresh_production_throws (s : State) (h : s.development = false) :
    refresh s = Except.error refresh_error_message ∧ exec_refresh s = s := by
  constructor
  · simp [refresh, h]
  · simp [exec_refresh, refresh, h]

/-- Witness for C2 at a concrete production-mode state. -/
theorem refresh_production_throws_witness :
    refresh prod_state = Except.error refresh_error_message ∧
      exec_refresh prod_state = prod_state :=
  refresh_production_throws prod_state rfl

/-! ### C3: refresh in development mode -/

/-- C3: whenever development mode is on, `refresh()` succeeds; afterwards
`cached_assets` is empty, and a path remains in the require cache iff it
was there before, is not the manifest file's path, and was not recorded in
`cached_assets`. -/
theorem refresh_development_evicts (s : State) (h : s.development = true) :
    refresh s = Except.ok (exec_refresh s) ∧
    (exec_refresh s).cached_assets = [] ∧
    ∀ p, p ∈ (exec_refresh s).require_cache ↔
      (p ∈ s.require_cache ∧ p ≠ s.webpack_assets_path ∧ p ∉ s.cached_assets) := by
  have hr : refresh s = Except.ok
      { s with
        require_cache := s.cached_assets.foldl (fun c q => c.filter (fun r => r ≠ q))
          (s.require_cache.filter (fun r => r ≠ s.webpack_assets_path)),
        cached_assets := [] } := by
    simp [refresh, h]
  have he : exec_refresh s =
      { s with
        require_cache := s.cached_assets.foldl (fun c q => c.filter (fun r => r ≠ q))
          (s.require_cache.filter (fun r => r ≠ s.webpack_assets_path)),
        cached_assets := [] } := by
    simp only [exec_refresh, hr]
  refine ⟨by rw [hr, he], by rw [he], ?_⟩
  intro p
  rw [he]
  simp only [mem_foldl_filter, List.mem_filter, decide_eq_true_eq]
  tauto

/-- Witness for C3 at a concrete development-mode state: the tracked asset
is gone from the require cache after `refresh()`. -/
theorem refresh_development_evicts_witness :
    refresh dev_state = Except.ok (exec_refresh dev_state) ∧
    (exec_refresh dev_state).cached_assets = [] ∧
    ("/app/webpack-assets.json" ∈ (exec_refresh dev_state).require_cache ↔
      ("/app/webpack-assets.json" ∈ dev_state.require_cache ∧
        "/app/webpack-assets.json" ≠ dev_state.webpack_assets_path ∧
        "/app/webpack-assets.json" ∉ dev_state.cached_assets)) :=
  ⟨(refresh_development_evicts dev_state rfl).1,
   (refresh_development_evicts dev_state rfl).2.1,
   (refresh_development_evicts dev_state rfl).2.2 "/app/webpack-assets.json"⟩

/-! ### C8: assets() and the missing manifest -/

/-- C8: `assets()` never fails in development mode — with the manifest
file absent it returns the empty default stub (after logging); whenever
the file is present (any mode) it returns the file's contents; in
production mode with the file absent it propagates the load failure. -/
theorem assets_behaviour (s : State) :
    (s.development = true → s.disk s.webpack_assets_path = none →
      assets s = Except.ok default_webpack_assets) ∧
    (∀ m, s.disk s.webpack_assets_path = some m → assets s = Except.ok m) ∧
    (s.development = false → s.disk s.webpack_assets_path = none →
      assets s = Except.error ("Cannot find module " ++ s.webpack_assets_path)) := by
  refine ⟨fun h1 h2 => ?_, fun m h => ?_, fun h1 h2 => ?_⟩
  · simp [assets, h1, h2]
  · simp [assets, h]
  · simp [assets, h1, h2]

/-- Witness for C8: the stub on a development-mode state missing its
manifest, and the real contents on a state that has it. -/
theorem assets_behaviour_witness :
    assets dev_missing_state = Except.ok default_webpack_assets ∧
    assets prod_state = Except.ok sample_manifest :=
  ⟨(assets_behaviour dev_missing_state).1 rfl rfl,
   (assets_behaviour prod_state).2.1 sample_manifest rfl⟩

/-! ### C1: the interception policy -/

/-- Provided the project path is set and the manifest can load, whether
the require hook claims a load is exactly the code's
`includes && !excludes` on the normalized path. -/
theorem intercepted_require_eq (s : State) (p pp : String) (d : Description)
    (hpp : s.project_path = some pp)
    (h : s.development = true ∨ (s.disk s.webpack_assets_path).isSome = true) :
    intercepted (require s p d) =
      (includes (normalize_asset_path p pp) d && !excludes (normalize_asset_path p pp) d) := by
  simp only [require, hpp]
  cases hinc : includes (normalize_asset_path p pp) d with
  | false => simp [hinc, intercepted]
  | true =>
    cases hexc : excludes (normalize_asset_path p pp) d with
    | true => simp [hexc, intercepted]
    | false =>
      cases hdev : s.development with
      | true =>
        obtain ⟨v, hv⟩ := asset_source_isOk { s with cached_assets := s.cached_assets ++ [p] }
          (webpack_path (normalize_asset_path p pp)) (Or.inl hdev)
        simp only [hdev, hpp] at hv
        simp [hinc, hexc, hdev, hv, intercepted]
      | false =>
        obtain ⟨v, hv⟩ := asset_source_isOk s (webpack_path (normalize_asset_path p pp)) h
        simp [hinc, hexc, hdev, hv, intercepted]

/-- C1 counterexample: a present-but-empty include list.  The claim's
predicate ("include list is empty or absent" ⇒ everything included) says
the hook intercepts `/app/a.png`, but the code's `includes` loop finds no
matching matcher in the empty list and the hook declines. -/
theorem claim_intercept_counterexample :
    claim_intercept (normalize_asset_path "/app/a.png" "/app") d_empty_include = true ∧
    dev_state.project_path = some "/app" ∧
    intercepted (require dev_state "/app/a.png" d_empty_include) = false := by decide

/-- C1 (amended): provided the project path is set and the manifest can
load, the require hook intercepts a path iff (the include list is ABSENT,
or some include matcher matches the normalized path) and no exclude
matcher matches it; an exclude match dominates.  (A present-but-empty
include list intercepts nothing.) -/
theorem require_intercepts_iff (s : State) (p pp : String) (d : Description)
    (hpp : s.project_path = some pp)
    (h : s.development = true ∨ (s.disk s.webpack_assets_path).isSome = true) :
    intercepted (require s p d) = true ↔
      ((d.include' = none ∨ ∃ m ∈ (d.include').getD [], m.matches (normalize_asset_path p pp)) ∧
        ¬ ∃ m ∈ (d.exclude).getD [], m.matches (normalize_asset_path p pp)) := by
  rw [intercepted_require_eq s p pp d hpp h, Bool.and_eq_true, Bool.not_eq_true']
  rw [includes_iff]
  constructor
  · rintro ⟨h1, h2⟩
    exact ⟨h1, fun hex => by rw [(excludes_iff _ _).mpr hex] at h2; cases h2⟩
  · rintro ⟨h1, h2⟩
    refine ⟨h1, ?_⟩
    cases hx : excludes (normalize_asset_path p pp) d with
    | false => rfl
    | true => exact absurd ((excludes_iff _ _).mp hx) h2

/-- Witness for amended C1: a literal include matcher that matches makes
the hook intercept. -/
theorem require_intercepts_iff_witness :
    dev_state.project_path = some "/app" ∧
    dev_state.development = true ∧
    intercepted (require dev_state "/app/a.png" d_literal) = true :=
  ⟨rfl, rfl,
    (require_intercepts_iff dev_state "/app/a.png" "/app" d_literal rfl (Or.inl rfl)).mpr
      ⟨Or.inr (by decide), by decide⟩⟩

/-! ### C5: missing manifest key still claims the load -/

/-- C5: when the project path is set, the policy admits the normalized
path, the manifest loads as `m`, and the canonical key is absent from
`m.assets`, the hook does not decline: it claims the load with a
synthesized module whose value is `undefined`. -/
theorem asset_not_found_claimed (s : State) (p pp : String) (d : Description) (m : Manifest)
    (hpp : s.project_path = some pp)
    (hinc : includes (normalize_asset_path p pp) d = true)
    (hexc : excludes (normalize_asset_path p pp) d = false)
    (hassets : assets s = Except.ok m)
    (hmiss : m.assets.lookup (webpack_path (normalize_asset_path p pp)) = none) :
    hook_result (require s p d) = Except.ok (some (to_javascript_module_source none)) := by
  have hsrc : ∀ l : List String,
      asset_source { s with cached_assets := l } (webpack_path (normalize_asset_path p pp)) =
        Except.ok none := by
    intro l
    have ha : assets { s with cached_assets := l } = Except.ok m := hassets
    unfold asset_source
    rw [ha]
    by_cases hk : webpack_path (normalize_asset_path p pp) = ""
    · simp [hk]
    · simp [hk, hmiss]
  cases hdev : s.development with
  | true =>
    have h1 := hsrc (s.cached_assets ++ [p])
    simp only [hdev, hpp] at h1
    simp [require, hpp, hinc, hexc, hdev, h1, hook_result, Except.map]
  | false =>
    have h0 : asset_source s (webpack_path (normalize_asset_path p pp)) = Except.ok none :=
      hsrc s.cached_assets
    simp [require, hpp, hinc, hexc, hdev, h0, hook_result, Except.map]

/-- Witness for C5: `/app/missing.png` passes the (absent) policy but its
key is not in the sample manifest; the hook claims the load with an
`undefined` value. -/
theorem asset_not_found_claimed_witness :
    hook_result (require dev_state "/app/missing.png" d_plain) =
      Except.ok (some (to_javascript_module_source none)) :=
  asset_not_found_claimed dev_state "/app/missing.png" "/app" d_plain sample_manifest
    rfl (by decide) (by decide) (by decide) (by decide)

/-! ### C10: development-mode tracking precedes the manifest lookup -/

/-- C10: in development mode, whenever the policy admits a load, `require`
appends the original global path to `cached_assets` — the resulting state
carries the appended list even though the synthesized value is whatever
the manifest lookup produced (possibly `undefined` for an absent key). -/
theorem require_tracks_in_development (s : State) (p pp : String) (d : Description)
    (hdev : s.development = true)
    (hpp : s.project_path = some pp)
    (hinc : includes (normalize_asset_path p pp) d = true)
    (hexc : excludes (normalize_asset_path p pp) d = false) :
    require s p d = Except.ok
      (some (to_javascript_module_source
        (resolved s (webpack_path (normalize_asset_path p pp)))),
       { s with cached_assets := s.cached_assets ++ [p] }) := by
  obtain ⟨v, hv⟩ := asset_source_isOk { s with cached_assets := s.cached_assets ++ [p] }
    (webpack_path (normalize_asset_path p pp)) (Or.inl hdev)
  have hv0 : asset_source s (webpack_path (normalize_asset_path p pp)) = Except.ok v := hv
  have hres : resolved s (webpack_path (normalize_asset_path p pp)) = v := by
    simp [resolved, hv0]
  simp only [hdev, hpp] at hv
  simp [require, hpp, hinc, hexc, hdev, hv, hres]

/-- Witness for C10: a load whose key is absent from the manifest is still
appended to `cached_assets`. -/
theorem require_tracks_in_development_witness :
    require dev_state "/app/missing.png" d_plain = Except.ok
      (some (to_javascript_module_source
        (resolved dev_state (webpack_path (normalize_asset_path "/app/missing.png" "/app")))),
       { dev_state with cached_assets := dev_state.cached_assets ++ ["/app/missing.png"] }) :=
  require_tracks_in_development dev_state "/app/missing.png" "/app" d_plain
    rfl rfl (by decide) (by decide)

/-! ### C6: the manifest self-interception guard -/

/-- C6 counterexample: the guard in `register_extension` is hard-coded to
the literal extension `'json'`, not to "the manifest's own extension".
With the manifest configured at `/app/webpack-assets.js`, the hook for the
matching extension `js` does NOT decline a request for the manifest file
itself — it claims the load — although the claim says it must decline. -/
theorem manifest_guard_counterexample :
    file_extension js_manifest_state.webpack_assets_path = "js" ∧
    hook_result (extension_hook js_manifest_state "js" d_js
      js_manifest_state.webpack_assets_path) ≠ Except.ok none := by decide

/-- C6 (amended): the self-interception guard applies exactly to the hook
registered for the literal extension `'json'`: that hook declines a
request for the manifest file path, and every other request — a different
path, or any hook of a different extension — proceeds to the normal
`require` interception. -/
theorem manifest_guard (s : State) (ext path : String) (d : Description) :
    (ext = "json" → path = s.webpack_assets_path →
      extension_hook s ext d path = Except.ok (none, s)) ∧
    (path ≠ s.webpack_assets_path → extension_hook s ext d path = require s path d) ∧
    (ext ≠ "json" → extension_hook s ext d path = require s path d) := by
  refine ⟨fun h1 h2 => ?_, fun h => ?_, fun h => ?_⟩
  · simp [extension_hook, h1, h2]
  · by_cases he : ext = "json" <;> simp [extension_hook, he, h]
  · simp [extension_hook, h]

/-- Witness for amended C6: the `json` hook declines the manifest itself;
a `js` hook on a `.js` manifest path falls through to `require`. -/
theorem manifest_guard_witness :
    extension_hook dev_state "json" d_plain dev_state.webpack_assets_path =
      Except.ok (none, dev_state) ∧
    extension_hook js_manifest_state "js" d_js js_manifest_state.webpack_assets_path =
      require js_manifest_state js_manifest_state.webpack_assets_path d_js :=
  ⟨(manifest_guard dev_state "json" dev_state.webpack_assets_path d_plain).1 rfl rfl,
   (manifest_guard js_manifest_state "js" js_manifest_state.webpack_assets_path d_js).2.2
     (by decide)⟩

/-! ### C7: the cached_assets lifecycle invariant -/

/-- C7: across every method call, `cached_assets` either stays unchanged,
or is cleared entirely in one step by `refresh()` in development mode, or
gains exactly the intercepted path appended by `require` while development
mode is on.  No other mutation of `cached_assets` exists. -/
theorem cached_assets_lifecycle (s : State) (op : Op) :
    (step s op).cached_assets = s.cached_assets ∨
    (s.development = true ∧ op = Op.refresh ∧ (step s op).cached_assets = []) ∨
    (s.development = true ∧ ∃ p d, op = Op.require p d ∧
      (step s op).cached_assets = s.cached_assets ++ [p]) := by
  cases op with
  | development flag => left; rfl
  | assets => left; rfl
  | undo => left; rfl
  | refresh =>
    cases hdev : s.development with
    | false => left; simp [step, exec_refresh, refresh, hdev]
    | true =>
      right; left
      exact ⟨rfl, rfl, by simp [step, exec_refresh, refresh, hdev]⟩
  | require p d =>
    cases hpp : s.project_path with
    | none => left; simp [step, require, hpp]
    | some pp =>
      by_cases hguard :
          ((!includes (normalize_asset_path p pp) d) ||
            excludes (normalize_asset_path p pp) d) = true
      · left; simp [step, require, hpp, hguard]
      · cases hdev : s.development with
        | false =>
          cases h : asset_source s (webpack_path (normalize_asset_path p pp)) with
          | error e => left; simp [step, require, hpp, hguard, hdev, h]
          | ok v => left; simp [step, require, hpp, hguard, hdev, h]
        | true =>
          cases h : asset_source { s with cached_assets := s.cached_assets ++ [p] }
              (webpack_path (normalize_asset_path p pp)) with
          | error e =>
            left
            simp only [hdev, hpp] at h
            simp [step, require, hpp, hguard, hdev, h]
          | ok v =>
            right; right
            refine ⟨rfl, p, d, rfl, ?_⟩
            simp only [hdev, hpp] at h
            simp [step, require, hpp, hguard, hdev, h]

/-! ### C9: undo unmounts everything and is idempotent -/

/-- What `undo` leaves mounted, as a single pair of filters. -/
theorem undo_mounted_eq (s : State) :
    (undo s).mounted = (s.mounted.filter (fun x => decide (x ∉ s.hooks))).filter
      (fun x => decide (s.alias_hook ≠ some x)) := by
  unfold undo
  cases ha : s.alias_hook with
  | none =>
    simp only [foldl_unmount_eq_filter]
    refine (List.filter_eq_self.mpr (fun x _ => by simp)).symm
  | some a =>
    simp only [unmount, foldl_unmount_eq_filter]
    refine List.filter_congr (fun x _ => ?_)
    rw [decide_eq_decide]
    constructor
    · intro h1 h2; exact h1 (by injection h2 with h2; exact h2.symm)
    · intro h1 h2; exact h1 (by rw [h2])

/-- C9: `undo()` unmounts every hook installed by registration — each
extension hook and the aliasing hook when mounted — and is idempotent: a
second call changes nothing. -/
theorem undo_unmounts_idempotent (s : State) :
    (∀ h ∈ s.hooks, h ∉ (undo s).mounted) ∧
    (∀ h, s.alias_hook = some h → h ∉ (undo s).mounted) ∧
    undo (undo s) = undo s := by
  refine ⟨?_, ?_, ?_⟩
  · intro h hh hc
    rw [undo_mounted_eq] at hc
    simp only [List.mem_filter, decide_eq_true_eq] at hc
    exact hc.1.2 hh
  · intro h ha hc
    rw [undo_mounted_eq] at hc
    simp only [List.mem_filter, decide_eq_true_eq, ha] at hc
    exact hc.2 rfl
  · have e1 : (undo (undo s)).mounted =
        ((undo s).mounted.filter (fun x => decide (x ∉ s.hooks))).filter
          (fun x => decide (s.alias_hook ≠ some x)) := undo_mounted_eq (undo s)
    have mounted_eq : (undo (undo s)).mounted = (undo s).mounted := by
      rw [e1, undo_mounted_eq s]
      simp only [List.filter_filter]
      refine List.filter_congr (fun x _ => ?_)
      cases h1 : decide (x ∉ s.hooks) <;>
        cases h2 : decide (s.alias_hook ≠ some x) <;> simp [h1, h2]
    calc undo (undo s) = { undo s with mounted := (undo (undo s)).mounted } := rfl
      _ = { undo s with mounted := (undo s).mounted } := by rw [mounted_eq]
      _ = undo s := rfl

/-- Witness for C9 at a concrete state: both installed extension hooks and
the aliasing hook are gone, and the second `undo` is a no-op. -/
theorem undo_unmounts_idempotent_witness :
    (0 ∉ (undo dev_state).mounted) ∧ (2 ∉ (undo dev_state).mounted) ∧
    undo (undo dev_state) = undo dev_state :=
  ⟨(undo_unmounts_idempotent dev_state).1 0 (by decide),
   (undo_unmounts_idempotent dev_state).2.1 2 rfl,
   (undo_unmounts_idempotent dev_state).2.2⟩

/-! ### C4: the manifest availability waiter -/

/-- Soundness of the check chain: when it fires at check `n0`, the
condition holds there, `n0` is at or after the starting check, and the
condition was false at every earlier observed check. -/
theorem check_chain_sound (cond : Nat → Bool) :
    ∀ fuel k n0, check_chain cond fuel k = some n0 →
      cond (poll_time n0) = true ∧ k ≤ n0 ∧
        ∀ m, k ≤ m → m < n0 → cond (poll_time m) = false := by
  intro fuel
  induction fuel with
  | zero => intro k n0 h; simp [check_chain] at h
  | succ fuel ih =>
    intro k n0 h
    by_cases hc : cond (poll_time k) = true
    · rw [check_chain, if_pos hc] at h
      injection h with h
      subst h
      exact ⟨hc, Nat.le_refl _,
        fun m hm hm' => absurd (Nat.lt_of_le_of_lt hm hm') (Nat.lt_irrefl _)⟩
    · rw [check_chain, if_neg hc] at h
      obtain ⟨h1, h2, h3⟩ := ih (k + 1) n0 h
      refine ⟨h1, Nat.le_of_succ_le h2, fun m hm hm' => ?_⟩
      rcases Nat.eq_or_lt_of_le hm with heq | hlt
      · rw [← heq]; exact Bool.eq_false_iff.mpr hc
      · exact h3 m hlt hm'

/-- Completeness of the check chain: if the condition holds at some
observed check, the chain fires. -/
theorem check_chain_complete (cond : Nat → Bool) :
    ∀ fuel k, (∃ j, j < fuel ∧ cond (poll_time (k + j)) = true) →
      ∃ n0, check_chain cond fuel k = some n0 := by
  intro fuel
  induction fuel with
  | zero =>
    rintro k ⟨j, hj, _⟩
    omega
  | succ fuel ih =>
    rintro k ⟨j, hj, hcj⟩
    by_cases hc : cond (poll_time k) = true
    · exact ⟨k, by rw [check_chain, if_pos hc]⟩
    · have hj0 : j ≠ 0 := by
        rintro rfl
        exact hc (by simpa using hcj)
      obtain ⟨n0, hn0⟩ := ih (k + 1)
        ⟨j - 1, by omega, by rw [show k + 1 + (j - 1) = k + j by omega]; exact hcj⟩
      exact ⟨n0, by rw [check_chain, if_neg hc]; exact hn0⟩

/-- C4: with the manifest file existing from time `T` on, the completion
fires exactly at the first condition check at or after `T` (every earlier
check ran strictly before the file existed); it does fire once enough
checks are observed; and consecutive checks are a fixed
`wait_for_interval` apart. -/
theorem wait_for_assets_completion (T : Nat) :
    (∀ fuel n0, check_chain (fun t => decide (T ≤ t)) fuel 0 = some n0 →
      (T ≤ poll_time n0 ∧ ∀ m, m < n0 → poll_time m < T)) ∧
    (∀ fuel, (T + wait_for_interval - 1) / wait_for_interval < fuel →
      ∃ n0, check_chain (fun t => decide (T ≤ t)) fuel 0 = some n0) ∧
    (∀ n, poll_time (n + 1) = poll_time n + wait_for_interval) := by
  refine ⟨?_, ?_, ?_⟩
  · intro fuel n0 h
    obtain ⟨h1, _, h3⟩ := check_chain_sound _ fuel 0 n0 h
    refine ⟨of_decide_eq_true h1, fun m hm => ?_⟩
    exact Nat.lt_of_not_le (of_decide_eq_false (h3 m (Nat.zero_le _) hm))
  · intro fuel hf
    apply check_chain_complete
    refine ⟨(T + wait_for_interval - 1) / wait_for_interval, ?_, ?_⟩
    · simp only [wait_for_interval] at *
      omega
    · rw [decide_eq_true_eq]
      simp only [poll_time, wait_for_interval]
      omega
  · intro n
    simp only [poll_time, wait_for_interval]
    omega

/-- Witness for C4 with the manifest created at `T = 500` ms: the chain
fires at check 2 (time 600), check 1 (time 300) ran before the file
existed, and checks 1 and 2 are 300 ms apart. -/
theorem wait_for_assets_completion_witness :
    (500 ≤ poll_time 2 ∧ poll_time 1 < 500) ∧
    poll_time 2 = poll_time 1 + wait_for_interval :=
  ⟨⟨((wait_for_assets_completion 500).1 3 2 (by decide)).1,
    ((wait_for_assets_completion 500).1 3 2 (by decide)).2 1 (by decide)⟩,
   (wait_for_assets_completion 500).2.2 1⟩

end WIT
